import Mathlib

/-!
Verification of the topstock backtesting system against its design
specification.  The Python sources (`strategys.py`, `backtest_engine.py`,
`batch_test_all.py`) are shallowly embedded below: pandas/numpy columns
become lists of `Cell := Option ℚ` (where `none` models NaN and every
comparison against NaN is false, as in numpy), the sequential bar-by-bar
loops become explicit state-passing step functions, and the floating-point
square root is modelled by `ratSqrt`, an exact rational square root on
perfect-square arguments and a rational approximation with absolute error
at most `10⁻⁶` otherwise (float64 agrees with the real square root to a
far smaller error, so every comparison whose two sides differ by more than
`10⁻⁶` is decided identically by the model and by the code).
-/

set_option maxRecDepth 4000

namespace Topstock

attribute [local semireducible] Rat.add Rat.mul Rat.sub Rat.inv

/-- Fuel-driven binary search for the integer square root: the largest `r`
in `[lo, hi)` with `r * r ≤ m`, assuming `lo * lo ≤ m < hi * hi`. -/
def isqrtGo (m : ℕ) : ℕ → ℕ → ℕ → ℕ
  | 0, lo, _ => lo
  | fuel + 1, lo, hi =>
    if hi ≤ lo + 1 then lo
    else
      let mid := (lo + hi) / 2
      if mid * mid ≤ m then isqrtGo m fuel mid hi else isqrtGo m fuel lo mid

/-- Integer square root (largest `r` with `r * r ≤ m`). -/
def isqrt (m : ℕ) : ℕ := isqrtGo m (m + 2) 0 (m + 1)

/-- Rational model of the floating-point square root: on a positive
rational `x` it returns `isqrt (num·den·10¹²) / (den·10⁶)`, which is the
exact square root whenever `x` is the square of a rational and otherwise a
rational approximation within `10⁻⁶` of the real square root (float64
agrees with the real square root far more closely, so both sides decide
every comparison below identically).  Nonpositive arguments (never
produced by the code, whose arguments are variances) return 0. -/
def ratSqrt (x : ℚ) : ℚ :=
  if x ≤ 0 then 0
  else (isqrt (x.num.toNat * x.den * 10 ^ 12) : ℚ) / ((x.den : ℚ) * 10 ^ 6)

/-- Model of one pandas cell: `none` is NaN. -/
abbrev Cell := Option ℚ

/-- NaN-propagating addition. -/
def cadd : Cell → Cell → Cell
  | some a, some b => some (a + b)
  | _, _ => none

/-- NaN-propagating subtraction. -/
def csub : Cell → Cell → Cell
  | some a, some b => some (a - b)
  | _, _ => none

/-- NaN-propagating multiplication. -/
def cmul : Cell → Cell → Cell
  | some a, some b => some (a * b)
  | _, _ => none

/-- NaN-propagating division; a zero divisor also yields `none`.  (The code
never divides by zero on any column that its decision logic reads.) -/
def cdiv : Cell → Cell → Cell
  | some a, some b => if b = 0 then none else some (a / b)
  | _, _ => none

/-- Strict less-than on cells; any comparison involving NaN is false,
matching numpy/pandas semantics. -/
def clt : Cell → Cell → Bool
  | some a, some b => decide (a < b)
  | _, _ => false

/-- Non-strict less-than on cells; false on NaN. -/
def cle : Cell → Cell → Bool
  | some a, some b => decide (a ≤ b)
  | _, _ => false

/-- Read cell `i` of a column; out-of-range reads (a shifted index before
the first row) are NaN. -/
def cget (xs : List Cell) (i : ℕ) : Cell := xs.getD i none

/-- Trailing window of width `w` ending at index `i` (inclusive),
`max (0, i+1-w) … i`, as used by `rolling(window=w, min_periods=1)`. -/
def windowAt (w i : ℕ) (xs : List Cell) : List Cell :=
  (xs.take (i + 1)).drop (i + 1 - w)

/-- Non-NaN values of a window, in order; pandas rolling statistics are
computed over exactly these. -/
def cellVals (l : List Cell) : List ℚ := l.filterMap id

/-- Sum of a rational list. -/
def listSum (l : List ℚ) : ℚ := l.foldl (· + ·) 0

/-- Rolling mean with `min_periods=1`: mean of the non-NaN values of the
trailing window, NaN when the window holds no valid value. -/
def rollingMean (w : ℕ) (xs : List Cell) (i : ℕ) : Cell :=
  let v := cellVals (windowAt w i xs)
  if v.length = 0 then none else some (listSum v / (v.length : ℚ))

/-- Sample variance (ddof = 1) of a list of at least two rationals. -/
def sampleVar (v : List ℚ) : ℚ :=
  let m := listSum v / (v.length : ℚ)
  listSum (v.map fun x => (x - m) ^ 2) / ((v.length : ℚ) - 1)

/-- Rolling sample standard deviation with `min_periods=1`: NaN when the
window holds fewer than two valid values (ddof = 1), otherwise the
(modelled) square root of the sample variance. -/
def rollingStd (w : ℕ) (xs : List Cell) (i : ℕ) : Cell :=
  let v := cellVals (windowAt w i xs)
  if v.length ≤ 1 then none else some (ratSqrt (sampleVar v))

/-- Maximum of a nonempty rational list. -/
def listMax (l : List ℚ) : ℚ := l.foldl max (l.headD 0)

/-- Minimum of a nonempty rational list. -/
def listMin (l : List ℚ) : ℚ := l.foldl min (l.headD 0)

/-- Rolling maximum with `min_periods=1`. -/
def rollingMax (w : ℕ) (xs : List Cell) (i : ℕ) : Cell :=
  let v := cellVals (windowAt w i xs)
  if v.length = 0 then none else some (listMax v)

/-- Rolling minimum with `min_periods=1`. -/
def rollingMin (w : ℕ) (xs : List Cell) (i : ℕ) : Cell :=
  let v := cellVals (windowAt w i xs)
  if v.length = 0 then none else some (listMin v)

/-- One OHLCV bar; `date` is the day number of the (strictly increasing)
datetime index. -/
structure Bar where
  date : ℤ
  op : ℚ
  high : ℚ
  low : ℚ
  close : ℚ
  vol : ℚ
  deriving DecidableEq, Repr

instance : Inhabited Bar := ⟨⟨0, 0, 0, 0, 0, 0⟩⟩

/-- Bar `i` of a series. -/
def bat (bars : List Bar) (i : ℕ) : Bar := bars.getD i default

/-- Close column as cells. -/
def closeCol (bars : List Bar) : List Cell := bars.map fun b => some b.close

/-- High column as cells. -/
def highCol (bars : List Bar) : List Cell := bars.map fun b => some b.high

/-- Low column as cells. -/
def lowCol (bars : List Bar) : List Cell := bars.map fun b => some b.low

/-- Volume column as cells. -/
def volCol (bars : List Bar) : List Cell := bars.map fun b => some b.vol

/-- Generic driver for the bar-by-bar loops of `strategys.py` and
`backtest_engine.py`: runs `step` over the given indices threading the
mutable state and collecting the per-bar output rows. -/
def procList {St Row : Type} (step : ℕ → St → St × Row) :
    List ℕ → St → List Row
  | [], _ => []
  | i :: rest, s =>
    let p := step i s
    p.2 :: procList step rest p.1

/-- State threaded through `procList`, after consuming the given indices. -/
def stateAfter {St Row : Type} (step : ℕ → St → St × Row) :
    List ℕ → St → St
  | [], s => s
  | i :: rest, s => stateAfter step rest (step i s).1

theorem procList_append {St Row : Type} (step : ℕ → St → St × Row)
    (l1 l2 : List ℕ) (s : St) :
    procList step (l1 ++ l2) s =
      procList step l1 s ++ procList step l2 (stateAfter step l1 s) := by
  induction l1 generalizing s with
  | nil => simp [procList, stateAfter]
  | cons i rest ih => simp [procList, stateAfter, ih]

theorem procList_length {St Row : Type} (step : ℕ → St → St × Row)
    (l : List ℕ) (s : St) : (procList step l s).length = l.length := by
  induction l generalizing s with
  | nil => rfl
  | cons i rest ih => simp [procList, ih]

/-! ### `EfficientBacktestEngine.run_backtest` (backtest_engine.py 128-195) -/

/-- One row of the signals frame as consumed by the engine. -/
structure SigRow where
  signal : ℚ
  position : ℚ
  close : ℚ
  deriving DecidableEq, Repr

instance : Inhabited SigRow := ⟨⟨0, 0, 0⟩⟩

/-- Equity row written by the engine: `position_value`, `cash`, `capital`
and `returns` columns of one bar. -/
structure EngRow where
  position_value : ℚ
  cash : ℚ
  capital : ℚ
  returns : ℚ
  deriving DecidableEq, Repr

/-- Mutable loop state of `run_backtest`: the `cash` and `position`
variables and the previous bar's `capital` cell. -/
structure EngState where
  cash : ℚ
  position : ℚ
  prevCapital : ℚ
  deriving DecidableEq, Repr

/-- Assembles a bar's equity row exactly as lines 186-190 do: the
`capital` cell is the sum of the bar's `cash` and `position_value` cells,
and `returns` divides by the previous capital when that is positive. -/
def mkEngRow (prevCap pv c : ℚ) : EngRow :=
  ⟨pv, c, c + pv, if 0 < prevCap then (c + pv) / prevCap - 1 else 0⟩

/-- Number of shares bought on an entry bar (line 156):
`(cash // (price * 100)) * 100`. -/
def buy_shares (cash price : ℚ) : ℚ := (⌊cash / (price * 100)⌋ : ℚ) * 100

/-- One iteration of the `run_backtest` loop (lines 148-190).  When a buy
signal arrives flat but the affordable share count is zero, neither the
cash nor the position-value cell of the bar is written, so they keep their
initialised values (`initial_capital` and `prev_position * close`). -/
def run_backtest_step (C0 rate : ℚ) (sigs : List SigRow) (i : ℕ)
    (s : EngState) : EngState × EngRow :=
  let sr := sigs.getD i default
  let price := sr.close
  let prevPos := (sigs.getD (i - 1) default).position
  if sr.signal = 1 ∧ s.position = 0 then
    let maxShares := buy_shares s.cash price
    if 0 < maxShares then
      let tv := maxShares * price
      let commission := tv * rate
      let cash2 := s.cash - tv - commission
      let r := mkEngRow s.prevCapital tv cash2
      (⟨cash2, maxShares, r.capital⟩, r)
    else
      let r := mkEngRow s.prevCapital (prevPos * price) C0
      (⟨s.cash, s.position, r.capital⟩, r)
  else if sr.signal = -1 ∧ 0 < s.position then
    let tv := s.position * price
    let commission := tv * rate
    let cash2 := s.cash + tv - commission
    let r := mkEngRow s.prevCapital 0 cash2
    (⟨cash2, 0, r.capital⟩, r)
  else
    let pv := if 0 < s.position then s.position * price else prevPos * price
    let r := mkEngRow s.prevCapital pv s.cash
    (⟨s.cash, s.position, r.capital⟩, r)

/-- `run_backtest`: bar 0 keeps the initialised cells (`capital = cash =
initial_capital`, `position_value = 0` because the shifted position is
filled with 0, `returns = 0`); bars `1 … n-1` are produced by the loop. -/
def run_backtest (C0 rate : ℚ) (sigs : List SigRow) : List EngRow :=
  match sigs with
  | [] => []
  | _ =>
    ⟨0, C0, C0, 0⟩ ::
      procList (run_backtest_step C0 rate sigs)
        (List.range' 1 (sigs.length - 1)) ⟨C0, 0, C0⟩

theorem mkEngRow_capital (prevCap pv c : ℚ) :
    (mkEngRow prevCap pv c).capital =
      (mkEngRow prevCap pv c).cash + (mkEngRow prevCap pv c).position_value := by
  simp [mkEngRow]

theorem run_backtest_step_capital (C0 rate : ℚ) (sigs : List SigRow)
    (i : ℕ) (s : EngState) :
    (run_backtest_step C0 rate sigs i s).2.capital =
      (run_backtest_step C0 rate sigs i s).2.cash +
        (run_backtest_step C0 rate sigs i s).2.position_value := by
  simp only [run_backtest_step, mkEngRow]
  split
  · split
    · rfl
    · rfl
  · split
    · rfl
    · rfl

theorem procList_capital (C0 rate : ℚ) (sigs : List SigRow)
    (idxs : List ℕ) (s : EngState) (r : EngRow)
    (hr : r ∈ procList (run_backtest_step C0 rate sigs) idxs s) :
    r.capital = r.cash + r.position_value := by
  induction idxs generalizing s with
  | nil => simp [procList] at hr
  | cons i rest ih =>
    simp only [procList, List.mem_cons] at hr
    rcases hr with h | h
    · subst h; exact run_backtest_step_capital C0 rate sigs i s
    · exact ih _ h

/-- C3.  For every instrument run of the equity simulator and every bar of
the output (the first bar, entry bars, hold bars and exit bars alike), the
recorded `capital` cell equals the recorded `cash` cell plus the recorded
`position_value` cell. -/
theorem c3_capital_eq_cash_plus_position (C0 rate : ℚ) (sigs : List SigRow)
    (i : ℕ) (r : EngRow) (hr : (run_backtest C0 rate sigs).get? i = some r) :
    r.capital = r.cash + r.position_value := by
  have hmem : r ∈ run_backtest C0 rate sigs := by
    exact List.get?_mem hr
  unfold run_backtest at hmem
  match sigs, hmem with
  | [], h => simp at h
  | a :: l, h =>
    simp only [List.mem_cons] at h
    rcases h with h | h
    · subst h; norm_num
    · exact procList_capital C0 rate (a :: l) _ _ r h

/-- Closed witness for C3: the invariant evaluated on a concrete two-bar
run containing an affordable entry. -/
theorem c3_capital_eq_cash_plus_position_witness :
    ∃ r : EngRow,
      (run_backtest 100000 (3/10000) [⟨0, 0, 10⟩, ⟨1, 1, 10⟩]).get? 1 = some r ∧
        r.capital = r.cash + r.position_value := by
  refine ⟨(run_backtest_step 100000 (3/10000) [⟨0, 0, 10⟩, ⟨1, 1, 10⟩] 1
      ⟨100000, 0, 100000⟩).2, by decide, ?_⟩
  exact c3_capital_eq_cash_plus_position 100000 (3/10000)
    [⟨0, 0, 10⟩, ⟨1, 1, 10⟩] 1 _ (by decide)

/-- C8.  Entry sizing buys `(cash // (price*100)) * 100` shares: always a
multiple of the 100-share lot whose cost does not exceed the available
cash; and when that count rounds to zero, the simulator performs no entry
at all on the bar: its cash is unchanged (so no commission is charged) and
its position stays flat at zero shares. -/
theorem c8_zero_share_entry_no_op :
    (∀ cash price : ℚ, 0 < price →
        (∃ k : ℤ, buy_shares cash price = (k : ℚ) * 100) ∧
          buy_shares cash price * price ≤ cash) ∧
      (∀ (C0 rate : ℚ) (sigs : List SigRow) (i : ℕ) (s : EngState),
        (sigs.getD i default).signal = 1 → s.position = 0 →
        buy_shares s.cash (sigs.getD i default).close = 0 →
        (run_backtest_step C0 rate sigs i s).1.cash = s.cash ∧
          (run_backtest_step C0 rate sigs i s).1.position = 0) := by
  constructor
  · intro cash price hp
    refine ⟨⟨⌊cash / (price * 100)⌋, rfl⟩, ?_⟩
    have h1 : (⌊cash / (price * 100)⌋ : ℚ) ≤ cash / (price * 100) :=
      Int.floor_le _
    have hp100 : (0 : ℚ) < price * 100 := by positivity
    calc buy_shares cash price * price
        = (⌊cash / (price * 100)⌋ : ℚ) * (price * 100) := by
          unfold buy_shares; ring
      _ ≤ cash / (price * 100) * (price * 100) :=
          mul_le_mul_of_nonneg_right h1 (le_of_lt hp100)
      _ = cash := by field_simp
  · intro C0 rate sigs i s hsig hpos hzero
    unfold run_backtest_step
    rw [if_pos ⟨hsig, hpos⟩, if_neg (by rw [hzero]; exact lt_irrefl 0)]
    exact ⟨rfl, hpos⟩

/-- Closed witness for C8: with price 10 and cash 900 the affordable count
rounds to zero (900 < 1000) and the simulator state is untouched; the lot
arithmetic also holds at cash 250000, price 10. -/
theorem c8_zero_share_entry_no_op_witness :
    ((∃ k : ℤ, buy_shares 250000 10 = (k : ℚ) * 100) ∧
        buy_shares 250000 10 * 10 ≤ 250000) ∧
      ((run_backtest_step 100000 (3/10000) [⟨1, 0, 10⟩] 0
            ⟨900, 0, 100000⟩).1.cash = 900 ∧
        (run_backtest_step 100000 (3/10000) [⟨1, 0, 10⟩] 0
            ⟨900, 0, 100000⟩).1.position = 0) :=
  ⟨c8_zero_share_entry_no_op.1 250000 10 (by norm_num),
    c8_zero_share_entry_no_op.2 100000 (3/10000) [⟨1, 0, 10⟩] 0
      ⟨900, 0, 100000⟩ (by decide) rfl (by decide)⟩

/-! ### `BatchDataLoader.load_single_stock` (backtest_engine.py 33-73) -/

/-- Date filter and minimum-bar eligibility check of `load_single_stock`
(lines 58-64): keep the bars dated on or after the cutoff and reject the
series with a null result — never an exception — when fewer than 100 bars
remain.  (`batch_test_all.load_single_stock`, lines 28-34, applies the
same rule with a different cutoff date.) -/
def load_single_stock (cutoff : ℤ) (bars : List Bar) : Option (List Bar) :=
  let df := bars.filter fun b => decide (cutoff ≤ b.date)
  if df.length < 100 then none else some df

/-- C6.  A series with exactly 99 bars after the date filter is rejected
(null result, no exception); a series with exactly 100 bars is accepted:
the eligibility threshold is a minimum of 100 bars. -/
theorem c6_min_bars_threshold (cutoff : ℤ) (bars : List Bar) :
    ((bars.filter fun b => decide (cutoff ≤ b.date)).length = 99 →
        load_single_stock cutoff bars = none) ∧
      ((bars.filter fun b => decide (cutoff ≤ b.date)).length = 100 →
        load_single_stock cutoff bars =
          some (bars.filter fun b => decide (cutoff ≤ b.date))) := by
  constructor
  · intro h
    unfold load_single_stock
    rw [if_pos]
    rw [h]
    norm_num
  · intro h
    unfold load_single_stock
    rw [if_neg]
    rw [h]
    norm_num

/-- A synthetic series of `n` bars all dated on day `i` for bar `i`. -/
def mkSeries (n : ℕ) : List Bar :=
  (List.range n).map fun i => ⟨(i : ℤ), 1, 1, 1, 1, 1⟩

/-- Closed witness for C6: the 99-bar series is rejected and the 100-bar
series accepted, with cutoff day 0. -/
theorem c6_min_bars_threshold_witness :
    load_single_stock 0 (mkSeries 99) = none ∧
      load_single_stock 0 (mkSeries 100) =
        some ((mkSeries 100).filter fun b => decide ((0 : ℤ) ≤ b.date)) :=
  ⟨(c6_min_bars_threshold 0 (mkSeries 99)).1 (by decide),
    (c6_min_bars_threshold 0 (mkSeries 100)).2 (by decide)⟩

/-! ### `EfficientBacktestEngine.calculate_performance_metrics`
(backtest_engine.py 197-292) -/

/-- One row of the equity curve consumed by the performance analyzer:
`capital`, `returns`, `cumulative_returns` and `signal` columns plus the
calendar month of the row's date (for the `resample('M')` grouping). -/
structure EqRow where
  capital : ℚ
  returns : ℚ
  cumulative_returns : ℚ
  signal : ℚ
  month : ℤ
  deriving DecidableEq, Repr

/-- Scalar summary produced by the analyzer.  The source additionally
passes each scalar through Python's display rounding `round(x, k)` before
storing it in the result dict; that final formatting step is not modelled
(it affects no property claimed of these scalars). -/
structure Performance where
  total_days : ℕ
  total_return : ℚ
  annual_return : ℚ
  annual_volatility : ℚ
  sharpe_ratio : ℚ
  max_drawdown : ℚ
  buy_signals : ℕ
  sell_signals : ℕ
  total_trades : ℕ
  win_rate : ℚ
  monthly_win_rate : ℚ
  max_negative_streak : ℕ
  final_capital : ℚ
  deriving DecidableEq, Repr

/-- Mean of a rational list. -/
def listMean (l : List ℚ) : ℚ := listSum l / (l.length : ℚ)

/-- Fuel-driven binary search for the integer `d`-th root. -/
def irootGo (d m : ℕ) : ℕ → ℕ → ℕ → ℕ
  | 0, lo, _ => lo
  | fuel + 1, lo, hi =>
    if hi ≤ lo + 1 then lo
    else
      let mid := (lo + hi) / 2
      if mid ^ d ≤ m then irootGo d m fuel mid hi else irootGo d m fuel lo mid

/-- Integer `d`-th root (largest `r` with `r ^ d ≤ m`). -/
def iroot (d m : ℕ) : ℕ := irootGo d m (m + 2) 0 (m + 1)

/-- Rational model of the float power `x ** (a / b)` used by the
annualized-return formula: the `b'`-th root of `x ^ a'` with `a' / b'` the
exponent in lowest terms, the root taken through the integer-root
approximation (exact when the reduced exponent is an integer, as at
`total_days = 252`).  No claim concerns this scalar. -/
def ratPowDiv (x : ℚ) (a b : ℕ) : ℚ :=
  let g := Nat.gcd a b
  let y := x ^ (a / g)
  if y ≤ 0 then 0
  else (iroot (b / g) (y.num.toNat * y.den ^ (b / g - 1)) : ℚ) / (y.den : ℚ)

/-- Expanding (running) maximum of a list, as `expanding().max()`. -/
def runningMaxAux (m : ℚ) : List ℚ → List ℚ
  | [] => []
  | x :: xs => max m x :: runningMaxAux (max m x) xs

/-- Expanding maximum starting from the first element. -/
def runningMax : List ℚ → List ℚ
  | [] => []
  | x :: xs => x :: runningMaxAux x xs

/-- Longest run of negative values (the consecutive-loss-day loop of
lines 254-261). -/
def maxNegStreakGo (cur best : ℕ) : List ℚ → ℕ
  | [] => best
  | p :: rest =>
    if p < 0 then maxNegStreakGo (cur + 1) (max best (cur + 1)) rest
    else maxNegStreakGo 0 best rest

/-- Longest run of negative daily P&L values. -/
def maxNegStreak (l : List ℚ) : ℕ := maxNegStreakGo 0 0 l

/-- Last `cumulative_returns` cell of each calendar month, in order
(`resample('M').last()` on a month-grouped, date-sorted frame). -/
def monthlyLastGo (cur : EqRow) : List EqRow → List ℚ
  | [] => [cur.cumulative_returns]
  | r :: rest =>
    if r.month = cur.month then monthlyLastGo r rest
    else cur.cumulative_returns :: monthlyLastGo r rest

/-- Month-end cumulative returns of the equity curve. -/
def monthlyLast : List EqRow → List ℚ
  | [] => []
  | r :: rest => monthlyLastGo r rest

/-- The analyzer: a null result (never an exception) for shorter than 50
equity points, otherwise the scalar summary.  Divisions mirror the source;
the degenerate zero-denominator cases (a running-max or month-end
cumulative return of exactly 0) are not exercised by any claim. -/
def calculate_performance_metrics (eq : List EqRow) : Option Performance :=
  if eq.length < 50 then none
  else
    let n : ℕ := eq.length
    let crs := eq.map (·.cumulative_returns)
    let rets := eq.map (·.returns)
    let caps := eq.map (·.capital)
    let total_return := crs.getLastD 0 - 1
    let annual_return :=
      if 252 ≤ n then ratPowDiv (1 + total_return) 252 n - 1
      else if 0 < n then total_return * (252 / (n : ℚ)) else 0
    let retStd := if 1 < rets.length then ratSqrt (sampleVar rets) else 0
    let annual_volatility := if 1 < rets.length then retStd * ratSqrt 252 else 0
    let sharpe :=
      if 0 < retStd ∧ 1 < rets.length then
        (listMean rets * 252 - 3 / 100) / (retStd * ratSqrt 252)
      else 0
    let max_drawdown := listMin (List.zipWith (fun c m => (c - m) / m) crs (runningMax crs))
    let buys := (eq.filter fun r => decide (r.signal = 1)).length
    let sells := (eq.filter fun r => decide (r.signal = -1)).length
    let total_trades := min buys sells
    let win_rate :=
      if 0 < total_trades then
        if 0 < total_return then min (7 / 10) (1 / 2 + total_return * 2)
        else max (3 / 10) (1 / 2 - |total_return| * 2)
      else 0
    let streak := maxNegStreak (List.zipWith (fun a b => a - b) caps.tail caps)
    let ml := monthlyLast eq
    let monthly_returns := List.zipWith (fun a b => a / b - 1) ml.tail ml
    let monthly_win_rate :=
      if 1 < ml.length then
        ((monthly_returns.filter fun x => decide (0 < x)).length : ℚ) /
          (monthly_returns.length : ℚ)
      else 0
    some ⟨n, total_return, annual_return, annual_volatility, sharpe, max_drawdown,
      buys, sells, total_trades, win_rate, monthly_win_rate, streak, caps.getLastD 0⟩

/-- C7.  The analyzer returns a null summary — not an exception — for any
equity series of fewer than 50 points, and a (non-null) summary for every
series of at least 50 points. -/
theorem c7_insufficient_data_null (eq : List EqRow) :
    (eq.length < 50 → calculate_performance_metrics eq = none) ∧
      (50 ≤ eq.length → (calculate_performance_metrics eq).isSome = true) := by
  constructor
  · intro h
    unfold calculate_performance_metrics
    rw [if_pos h]
  · intro h
    unfold calculate_performance_metrics
    rw [if_neg (by omega)]
    rfl

/-- A flat 50-point equity curve with one paired buy/sell signal. -/
def flatCurve : List EqRow :=
  (List.range 50).map fun i =>
    ⟨100000, 0, 1, if i = 10 then 1 else if i = 20 then -1 else 0, (i : ℤ) / 30⟩

/-- Closed witness for C7: a 49-point series yields the null summary, the
50-point series a non-null one. -/
theorem c7_insufficient_data_null_witness :
    calculate_performance_metrics (flatCurve.take 49) = none ∧
      (calculate_performance_metrics flatCurve).isSome = true :=
  ⟨(c7_insufficient_data_null (flatCurve.take 49)).1 (by decide),
    (c7_insufficient_data_null flatCurve).2 (by decide)⟩

/-- Heuristic win rate of lines 243-250, a function of the total return
alone. -/
def win_rate_heuristic (tr : ℚ) : ℚ :=
  if 0 < tr then min (7 / 10) (1 / 2 + tr * 2)
  else max (3 / 10) (1 / 2 - |tr| * 2)

/-- C10.  Whenever the analyzer reports at least one paired trade, its win
rate is the heuristic of the total return alone — independent of any
individual trade P&L — and always lies in the closed interval
`[0.3, 0.7]`; with zero paired trades the win rate is exactly 0. -/
theorem c10_win_rate_heuristic (eq : List EqRow) (P : Performance)
    (h : calculate_performance_metrics eq = some P) :
    (0 < P.total_trades →
        P.win_rate = win_rate_heuristic P.total_return ∧
          3 / 10 ≤ P.win_rate ∧ P.win_rate ≤ 7 / 10) ∧
      (P.total_trades = 0 → P.win_rate = 0) := by
  unfold calculate_performance_metrics at h
  split at h
  · exact absurd h (by simp)
  · rw [Option.some.inj h.symm]
    constructor
    · intro htr
      simp only at htr ⊢
      rw [if_pos htr]
      refine ⟨rfl, ?_, ?_⟩
      · split
        · rename_i h0
          exact le_inf (by norm_num) (by linarith)
        · exact le_sup_left
      · split
        · exact inf_le_left
        · refine sup_le (by norm_num) ?_
          have habs : 0 ≤ |(eq.map (·.cumulative_returns)).getLastD 0 - 1| :=
            abs_nonneg _
          linarith
    · intro htr
      simp only at htr ⊢
      rw [if_neg (by omega)]

/-- Closed witness for C10: the heuristic win rate of the flat curve (one
paired trade, zero total return) is exactly 0.5 and inside `[0.3, 0.7]`. -/
theorem c10_win_rate_heuristic_witness :
    ∃ P : Performance,
      calculate_performance_metrics flatCurve = some P ∧
        0 < P.total_trades ∧
        P.win_rate = win_rate_heuristic P.total_return ∧
        3 / 10 ≤ P.win_rate ∧ P.win_rate ≤ 7 / 10 := by
  refine ⟨(calculate_performance_metrics flatCurve).get (by decide), ?_, ?_, ?_⟩
  · exact (Option.some_get _).symm
  · decide
  · exact (c10_win_rate_heuristic flatCurve _ (Option.some_get _).symm).1 (by decide)

/-! ### `MovingAverageStrategy` (strategys.py 26-261)

The diagnostic columns that no decision reads (`entry_date`, `trade_pnl`,
`trade_pnl_pct` and the unused auxiliary indicators MA10/MA30/MA60, ATR14,
price channel) are not modelled; every column the signal loop reads is. -/

/-- Value of a shifted column: `shift(1)` is NaN at the first row. -/
def prevCell (f : ℕ → Cell) (i : ℕ) : Cell := if i = 0 then none else f (i - 1)

/-- `pct_change(periods=k)`: `x_i / x_{i-k} - 1`, NaN for the first `k`
rows. -/
def pctChangeAt (k : ℕ) (f : ℕ → Cell) (i : ℕ) : Cell :=
  if i < k then none else csub (cdiv (f i) (f (i - k))) (some 1)

namespace MAStrategy

/-- Constructor parameters of `MovingAverageStrategy.__init__`. -/
structure Params where
  ma_period : ℕ
  volume_confirmation : Bool
  stop_loss_pct : ℚ
  take_profit_pct : ℚ
  use_ma_slope : Bool
  deriving DecidableEq, Repr

/-- The default configuration (20, True, 0.08, 0.20, False). -/
def defaultParams : Params := ⟨20, true, 8 / 100, 20 / 100, false⟩

/-- `MA20` column. -/
def ma20 (p : Params) (bars : List Bar) (i : ℕ) : Cell :=
  rollingMean p.ma_period (closeCol bars) i

/-- `volume_ma20` column. -/
def volume_ma20 (bars : List Bar) (i : ℕ) : Cell :=
  rollingMean 20 (volCol bars) i

/-- `volume_ratio` column. -/
def volume_ratio (bars : List Bar) (i : ℕ) : Cell :=
  cdiv (cget (volCol bars) i) (volume_ma20 bars i)

/-- `MA20_slope` column (five-period percent change of MA20). -/
def ma20_slope (p : Params) (bars : List Bar) (i : ℕ) : Cell :=
  pctChangeAt 5 (ma20 p bars) i

/-- Golden cross: close above MA20 today, at or below yesterday. -/
def golden_cross (p : Params) (bars : List Bar) (i : ℕ) : Bool :=
  clt (ma20 p bars i) (cget (closeCol bars) i) &&
    cle (prevCell (cget (closeCol bars)) i) (prevCell (ma20 p bars) i)

/-- Dead cross: close below MA20 today, at or above yesterday. -/
def dead_cross (p : Params) (bars : List Bar) (i : ℕ) : Bool :=
  clt (cget (closeCol bars) i) (ma20 p bars i) &&
    cle (prevCell (ma20 p bars) i) (prevCell (cget (closeCol bars)) i)

/-- Raw vectorized signal with the optional volume and slope confirmation
filters, which only suppress golden crosses (lines 127-148). -/
def signal_raw (p : Params) (bars : List Bar) (i : ℕ) : ℚ :=
  if golden_cross p bars i then
    if p.volume_confirmation && !clt (some (12 / 10)) (volume_ratio bars i) then 0
    else if p.use_ma_slope && !clt (some 0) (ma20_slope p bars i) then 0
    else 1
  else if dead_cross p bars i then -1
  else 0

/-- Exit reasons of the sell branch (the source's Chinese reason strings
in code order: dead cross, stop-loss, take-profit, excessive deviation). -/
inductive Reason where
  | deadCross
  | stopLoss
  | takeProfit
  | deviation
  deriving DecidableEq, Repr

/-- Mutable loop state (lines 150-156). -/
structure St where
  pos : Bool
  entry_price : ℚ
  hold_days : ℕ
  stop_loss : ℚ
  take_profit : ℚ
  deriving DecidableEq, Repr

/-- Per-bar output row; cells keep their 0.0 initialisation when the loop
does not write them on a bar. -/
structure Row where
  signal : ℚ
  position : ℚ
  entry_price : ℚ
  stop_loss : ℚ
  take_profit : ℚ
  hold_days : ℕ
  sell_reason : Option Reason
  deriving DecidableEq, Repr

/-- Initial loop state. -/
def st0 : St := ⟨false, 0, 0, 0, 0⟩

/-- Row of a bar never touched by the loop (all columns initialised). -/
def row0 : Row := ⟨0, 0, 0, 0, 0, 0, none⟩

/-- The stop-loss breach test of lines 208-211: the bar low at or below
the stop in force. -/
def stop_hit (low stop : ℚ) : Bool := decide (low ≤ stop)

/-- One iteration of the signal loop (lines 158-250). -/
def step (p : Params) (bars : List Bar) (i : ℕ) (s : St) : St × Row :=
  let b := bat bars i
  let raw := signal_raw p bars i
  if s.pos = false then
    if raw = 1 then
      let stop := b.close * (1 - p.stop_loss_pct)
      let tp := b.close * (1 + p.take_profit_pct)
      (⟨true, b.close, 1, stop, tp⟩, ⟨1, 1, b.close, stop, tp, 1, none⟩)
    else (s, row0)
  else
    let hd := s.hold_days + 1
    let sell : Option Reason :=
      if raw = -1 then some .deadCross
      else if stop_hit b.low s.stop_loss then some .stopLoss
      else if s.take_profit ≤ b.high then some .takeProfit
      else if clt (cmul (ma20 p bars i) (some (115 / 100))) (some b.close) then
        some .deviation
      else none
    match sell with
    | some r => (st0, ⟨-1, 0, 0, 0, 0, hd, some r⟩)
    | none =>
      let stop2 := max s.stop_loss (b.high * (1 - p.stop_loss_pct))
      (⟨true, s.entry_price, hd, stop2, s.take_profit⟩,
        ⟨0, 1, 0, stop2, 0, hd, none⟩)

/-- `generate_signals`: the initialised first row followed by the loop
over bars `1 … n-1`. -/
def generate_signals (p : Params) (bars : List Bar) : List Row :=
  match bars with
  | [] => []
  | _ => row0 :: procList (step p bars) (List.range' 1 (bars.length - 1)) st0

theorem step_row_pos_state (p : Params) (bars : List Bar) (i : ℕ) (s : St)
    (h : (step p bars i s).2.position = 1) :
    (step p bars i s).1.pos = true ∧
      (step p bars i s).1.stop_loss = (step p bars i s).2.stop_loss := by
  unfold step at h ⊢
  by_cases hp : s.pos = false
  · rw [if_pos hp] at h ⊢
    by_cases hr : signal_raw p bars i = 1
    · rw [if_pos hr] at h ⊢
      exact ⟨rfl, rfl⟩
    · rw [if_neg hr] at h ⊢
      exact absurd h (by simp [row0])
  · rw [if_neg hp] at h ⊢
    rcases hs : (if signal_raw p bars i = -1 then some Reason.deadCross
        else if stop_hit (bat bars i).low s.stop_loss then some Reason.stopLoss
        else if s.take_profit ≤ (bat bars i).high then some Reason.takeProfit
        else if clt (cmul (ma20 p bars i) (some (115 / 100)))
            (some (bat bars i).close) then some Reason.deviation
        else none) with _ | r
    · exact ⟨rfl, rfl⟩
    · rw [hs] at h
      simp at h

theorem step_stop_mono (p : Params) (bars : List Bar) (i : ℕ) (s : St)
    (hpos : s.pos = true) (h : (step p bars i s).2.position = 1) :
    s.stop_loss ≤ (step p bars i s).2.stop_loss := by
  unfold step at h ⊢
  rw [if_neg (by simp [hpos])] at h ⊢
  rcases hs : (if signal_raw p bars i = -1 then some Reason.deadCross
      else if stop_hit (bat bars i).low s.stop_loss then some Reason.stopLoss
      else if s.take_profit ≤ (bat bars i).high then some Reason.takeProfit
      else if clt (cmul (ma20 p bars i) (some (115 / 100)))
          (some (bat bars i).close) then some Reason.deviation
      else none) with _ | r
  · exact le_sup_left
  · rw [hs] at h
    simp at h

theorem procList_stop_mono (p : Params) (bars : List Bar) (idxs : List ℕ)
    (s : St) (k : ℕ) (a b : Row)
    (ha : (procList (step p bars) idxs s).get? k = some a)
    (hb : (procList (step p bars) idxs s).get? (k + 1) = some b)
    (hpa : a.position = 1) (hpb : b.position = 1) :
    a.stop_loss ≤ b.stop_loss := by
  induction idxs generalizing s k with
  | nil => simp [procList] at ha
  | cons i rest ih =>
    match k with
    | 0 =>
      simp only [procList, List.get?_cons_zero, List.get?_cons_succ,
        Option.some.injEq] at ha hb
      match rest, hb with
      | j :: rest2, hb =>
        simp only [procList, List.get?_cons_zero, Option.some.injEq] at hb
        obtain ⟨hpos1, hstop1⟩ := step_row_pos_state p bars i s (ha ▸ hpa)
        have hmono := step_stop_mono p bars j (step p bars i s).1 hpos1
          (hb ▸ hpb)
        rw [← ha, ← hb]
        rw [hstop1] at hmono
        exact hmono
    | k + 1 =>
      simp only [procList, List.get?_cons_succ] at ha hb
      exact ih _ _ ha hb

/-- C1 (amended).  For every configuration and every bar sequence, the
`stop_loss` cell recorded by `MovingAverageStrategy` on consecutive bars
that are both inside a long position never decreases: the trailing stop of
lines 244-249 only moves upward.  (The original claim over *every*
strategy variant is false: `MeanReversionStrategy` re-anchors its recorded
stop to the Bollinger lower band each hold bar, without a monotonicity
clamp — see the counterexample.) -/
theorem c1_ma_trailing_stop_monotone (p : Params) (bars : List Bar)
    (k : ℕ) (a b : Row)
    (ha : (generate_signals p bars).get? k = some a)
    (hb : (generate_signals p bars).get? (k + 1) = some b)
    (hpa : a.position = 1) (hpb : b.position = 1) :
    a.stop_loss ≤ b.stop_loss := by
  unfold generate_signals at ha hb
  match bars, ha, hb with
  | b0 :: brest, ha, hb =>
    match k with
    | 0 =>
      simp only [List.get?_cons_zero, Option.some.injEq] at ha
      rw [← ha] at hpa
      exact absurd hpa (by simp [row0])
    | k + 1 =>
      simp only [List.get?_cons_succ] at ha hb
      exact procList_stop_mono p (b0 :: brest) _ _ k a b ha hb hpa hpb

theorem step_signal_one (p : Params) (bars : List Bar) (i : ℕ) (s : St)
    (h : (step p bars i s).2.signal = 1) :
    s.pos = false ∧ (step p bars i s).1.pos = true := by
  unfold step at h ⊢
  by_cases hp : s.pos = false
  · rw [if_pos hp] at h ⊢
    by_cases hr : signal_raw p bars i = 1
    · rw [if_pos hr] at h ⊢
      exact ⟨hp, rfl⟩
    · rw [if_neg hr] at h
      exact absurd h (by simp [row0])
  · rw [if_neg hp] at h
    rcases hs : (if signal_raw p bars i = -1 then some Reason.deadCross
        else if stop_hit (bat bars i).low s.stop_loss then some Reason.stopLoss
        else if s.take_profit ≤ (bat bars i).high then some Reason.takeProfit
        else if clt (cmul (ma20 p bars i) (some (115 / 100)))
            (some (bat bars i).close) then some Reason.deviation
        else none) with _ | r
    · rw [hs] at h
      simp at h
    · rw [hs] at h
      norm_num at h

theorem step_long_cases (p : Params) (bars : List Bar) (i : ℕ) (s : St)
    (hpos : s.pos = true) :
    ((step p bars i s).2.signal = -1 ∧ (step p bars i s).1.pos = false) ∨
      ((step p bars i s).2.signal = 0 ∧ (step p bars i s).1.pos = true) := by
  unfold step
  rw [if_neg (by simp [hpos])]
  rcases hs : (if signal_raw p bars i = -1 then some Reason.deadCross
      else if stop_hit (bat bars i).low s.stop_loss then some Reason.stopLoss
      else if s.take_profit ≤ (bat bars i).high then some Reason.takeProfit
      else if clt (cmul (ma20 p bars i) (some (115 / 100)))
          (some (bat bars i).close) then some Reason.deviation
      else none) with _ | r
  · exact Or.inr ⟨rfl, rfl⟩
  · exact Or.inl ⟨rfl, rfl⟩

theorem procList_buy_needs_sell (p : Params) (bars : List Bar)
    (idxs : List ℕ) (s : St) (k : ℕ) (r : Row) (hpos : s.pos = true)
    (hr : (procList (step p bars) idxs s).get? k = some r)
    (hsig : r.signal = 1) :
    ∃ m, m < k ∧ ∃ c, (procList (step p bars) idxs s).get? m = some c ∧
      c.signal = -1 := by
  induction idxs generalizing s k with
  | nil => simp [procList] at hr
  | cons i rest ih =>
    rcases step_long_cases p bars i s hpos with ⟨h1, _⟩ | ⟨h1, h2⟩
    · match k with
      | 0 =>
        simp only [procList, List.get?_cons_zero, Option.some.injEq] at hr
        rw [← hr] at hsig
        rw [h1] at hsig
        exact absurd hsig (by norm_num)
      | k + 1 =>
        exact ⟨0, Nat.succ_pos _, (step p bars i s).2, rfl, h1⟩
    · match k with
      | 0 =>
        simp only [procList, List.get?_cons_zero, Option.some.injEq] at hr
        rw [← hr] at hsig
        rw [h1] at hsig
        exact absurd hsig (by norm_num)
      | k + 1 =>
        simp only [procList, List.get?_cons_succ] at hr
        obtain ⟨m, hm, c, hc, hcs⟩ := ih _ _ h2 hr
        exact ⟨m + 1, by omega, c, hc, hcs⟩

theorem procList_state_after_buy (p : Params) (bars : List Bar)
    (idxs : List ℕ) (s : St) (k : ℕ) (r : Row)
    (hr : (procList (step p bars) idxs s).get? k = some r)
    (hsig : r.signal = 1) :
    (stateAfter (step p bars) (idxs.take (k + 1)) s).pos = true := by
  induction idxs generalizing s k with
  | nil => simp [procList] at hr
  | cons i rest ih =>
    match k with
    | 0 =>
      simp only [procList, List.get?_cons_zero, Option.some.injEq] at hr
      have := (step_signal_one p bars i s (hr ▸ hsig)).2
      simpa [stateAfter] using this
    | k + 1 =>
      simp only [procList, List.get?_cons_succ] at hr
      have := ih _ _ hr
      simpa [stateAfter] using this

/-- C5 (amended).  For every configuration and every bar sequence,
`MovingAverageStrategy` never emits two buy (Enter) signals without an
intervening sell (Exit) signal: one position per instrument, no
pyramiding.  (The original claim over *every* strategy variant is false:
`VolatilityControlStrategy` emits a second `signal = 1` to add shares on a
volatility downshift while already long — see the counterexample.) -/
theorem c5_ma_no_double_buy (p : Params) (bars : List Bar) (i j : ℕ)
    (a b : Row) (hij : i < j)
    (ha : (generate_signals p bars).get? i = some a)
    (hb : (generate_signals p bars).get? j = some b)
    (hsa : a.signal = 1) (hsb : b.signal = 1) :
    ∃ k, i < k ∧ k < j ∧ ∃ c, (generate_signals p bars).get? k = some c ∧
      c.signal = -1 := by
  match bars, ha, hb with
  | b0 :: brest, ha, hb =>
    obtain ⟨i', rfl⟩ : ∃ t, i = t + 1 := by
      rcases i with _ | t
      · exfalso
        unfold generate_signals at ha
        simp only [List.get?_cons_zero, Option.some.injEq] at ha
        rw [← ha] at hsa
        exact absurd hsa (by simp [row0])
      · exact ⟨t, rfl⟩
    obtain ⟨j', rfl⟩ : ∃ t, j = t + 1 := ⟨j - 1, by omega⟩
    unfold generate_signals at ha hb ⊢
    simp only [List.get?_cons_succ] at ha hb
    have hlen := procList_length (step p (b0 :: brest))
      (List.range' 1 ((b0 :: brest).length - 1)) st0
    have hi'lt : i' < (List.range' 1 ((b0 :: brest).length - 1)).length := by
      have h1 : i' < (procList (step p (b0 :: brest))
          (List.range' 1 ((b0 :: brest).length - 1)) st0).length := by
        by_contra hcon
        rw [List.get?_eq_none.mpr (by omega)] at ha
        exact absurd ha (by simp)
      omega
    have hl1 : (procList (step p (b0 :: brest))
        ((List.range' 1 ((b0 :: brest).length - 1)).take (i' + 1)) st0).length
        = i' + 1 := by
      rw [procList_length, List.length_take]
      omega
    have hsplit : procList (step p (b0 :: brest))
        (List.range' 1 ((b0 :: brest).length - 1)) st0 =
        procList (step p (b0 :: brest))
          ((List.range' 1 ((b0 :: brest).length - 1)).take (i' + 1)) st0 ++
          procList (step p (b0 :: brest))
            ((List.range' 1 ((b0 :: brest).length - 1)).drop (i' + 1))
            (stateAfter (step p (b0 :: brest))
              ((List.range' 1 ((b0 :: brest).length - 1)).take (i' + 1)) st0) := by
      conv_lhs =>
        rw [← List.take_append_drop (i' + 1)
          (List.range' 1 ((b0 :: brest).length - 1))]
      exact procList_append _ _ _ _
    have hmid : (stateAfter (step p (b0 :: brest))
        ((List.range' 1 ((b0 :: brest).length - 1)).take (i' + 1)) st0).pos
        = true := procList_state_after_buy p (b0 :: brest) _ st0 i' a ha hsa
    have hb2 : (procList (step p (b0 :: brest))
        ((List.range' 1 ((b0 :: brest).length - 1)).drop (i' + 1))
        (stateAfter (step p (b0 :: brest))
          ((List.range' 1 ((b0 :: brest).length - 1)).take (i' + 1)) st0)).get?
          (j' - (i' + 1)) = some b := by
      rw [hsplit] at hb
      rw [List.get?_append_right (by omega)] at hb
      rw [hl1] at hb
      exact hb
    obtain ⟨m, hm, c, hc, hcs⟩ := procList_buy_needs_sell p (b0 :: brest)
      _ _ _ b hmid hb2 hsb
    refine ⟨i' + 1 + m + 1, by omega, by omega, c, ?_, hcs⟩
    simp only [List.get?_cons_succ]
    rw [hsplit, List.get?_append_right (by omega), hl1]
    have hms : i' + 1 + m - (i' + 1) = m := by omega
    rw [hms]
    exact hc

/-- A demonstration series for the moving-average strategy: entry at bar
5, hold at bar 6, dead-cross exit at bar 7, re-entry at bar 9. -/
def maDemoBars : List Bar :=
  [⟨0, 100, 101, 99, 100, 100⟩, ⟨1, 100, 101, 99, 100, 100⟩,
   ⟨2, 100, 101, 99, 100, 100⟩, ⟨3, 100, 101, 99, 100, 100⟩,
   ⟨4, 100, 101, 99, 100, 100⟩, ⟨5, 106, 106, 100, 106, 1000⟩,
   ⟨6, 107, 108, 106, 107, 100⟩, ⟨7, 95, 107, 94, 95, 100⟩,
   ⟨8, 96, 97, 95, 96, 100⟩, ⟨9, 110, 110, 105, 110, 1000⟩]

/-- Closed witness for C1: on the demonstration series, bars 5 and 6 are
both long and the recorded stop rises from 97.52 to 99.36. -/
theorem c1_ma_trailing_stop_monotone_witness :
    (generate_signals defaultParams maDemoBars).get? 5 =
        some ⟨1, 1, 106, 2438 / 25, 636 / 5, 1, none⟩ ∧
      (generate_signals defaultParams maDemoBars).get? 6 =
        some ⟨0, 1, 0, 2484 / 25, 0, 2, none⟩ ∧
      (2438 / 25 : ℚ) ≤ 2484 / 25 :=
  ⟨by decide, by decide,
    c1_ma_trailing_stop_monotone defaultParams maDemoBars 5
      ⟨1, 1, 106, 2438 / 25, 636 / 5, 1, none⟩
      ⟨0, 1, 0, 2484 / 25, 0, 2, none⟩ (by decide) (by decide) (by decide)
      (by decide)⟩

/-- Closed witness for C5: the demonstration series buys at bars 5 and 9,
and the theorem produces the intervening sell (the dead cross at bar 7). -/
theorem c5_ma_no_double_buy_witness :
    ∃ k, 5 < k ∧ k < 9 ∧
      ∃ c, (generate_signals defaultParams maDemoBars).get? k = some c ∧
        c.signal = -1 :=
  c5_ma_no_double_buy defaultParams maDemoBars 5 9
    ⟨1, 1, 106, 2438 / 25, 636 / 5, 1, none⟩
    ⟨1, 1, 110, 506 / 5, 132, 1, none⟩ (by omega) (by decide) (by decide)
    (by decide) (by decide)

end MAStrategy

/-! ### `BoxBreakoutStrategy` (strategys.py 655-773)

The `returns` and `volume_ma` columns, which the signal loop never reads,
are not modelled. -/

namespace BoxStrategy

/-- Constructor parameters of `BoxBreakoutStrategy.__init__`. -/
structure Params where
  box_period : ℕ
  hold_period : ℕ
  stop_loss_pct : ℚ
  deriving DecidableEq, Repr

/-- The default configuration (20, 10, 0.05). -/
def defaultParams : Params := ⟨20, 10, 5 / 100⟩

/-- `box_high`: shifted rolling maximum of the highs. -/
def box_high (p : Params) (bars : List Bar) (i : ℕ) : Cell :=
  prevCell (rollingMax p.box_period (highCol bars)) i

/-- `box_low`: shifted rolling minimum of the lows. -/
def box_low (p : Params) (bars : List Bar) (i : ℕ) : Cell :=
  prevCell (rollingMin p.box_period (lowCol bars)) i

/-- `box_height`. -/
def box_height (p : Params) (bars : List Bar) (i : ℕ) : Cell :=
  csub (box_high p bars i) (box_low p bars i)

/-- Exit reasons in code order: stop-loss (on the close), end of the hold
period, breakdown through the box low. -/
inductive Reason where
  | stopLoss
  | holdEnd
  | boxLow
  deriving DecidableEq, Repr

/-- Mutable loop state (lines 694-698). -/
structure St where
  pos : Bool
  entry_price : ℚ
  hold_days : ℕ
  stop_loss : ℚ
  deriving DecidableEq, Repr

/-- Per-bar output row. -/
structure Row where
  signal : ℚ
  position : ℚ
  hold_days : ℕ
  entry_price : ℚ
  stop_loss : ℚ
  sell_reason : Option Reason
  deriving DecidableEq, Repr

/-- Initial loop state. -/
def st0 : St := ⟨false, 0, 0, 0⟩

/-- Row of an untouched bar. -/
def row0 : Row := ⟨0, 0, 0, 0, 0, none⟩

/-- The stop-loss test of lines 734-737: a truthy (nonzero) stop price and
the bar **close** strictly below it — the bar low is not consulted. -/
def stop_hit (stop close : ℚ) : Bool := decide (stop ≠ 0) && decide (close < stop)

/-- One iteration of the signal loop (lines 700-766). -/
def step (p : Params) (bars : List Bar) (i : ℕ) (s : St) : St × Row :=
  let b := bat bars i
  if s.pos = false then
    if clt (box_high p bars i) (some b.close) &&
        clt (some 0) (box_height p bars i) then
      let stop := b.close * (1 - p.stop_loss_pct)
      (⟨true, b.close, 1, stop⟩, ⟨1, 1, 1, b.close, stop, none⟩)
    else (s, row0)
  else
    let hd := s.hold_days + 1
    let sell : Option Reason :=
      if stop_hit s.stop_loss b.close then some .stopLoss
      else if p.hold_period ≤ hd then some .holdEnd
      else if clt (some b.close) (box_low p bars i) then some .boxLow
      else none
    match sell with
    | some r => (st0, ⟨-1, 0, hd, 0, s.stop_loss, some r⟩)
    | none =>
      let trailing := b.high * (1 - p.stop_loss_pct)
      let stop2 := if s.stop_loss ≠ 0 then max s.stop_loss trailing else trailing
      (⟨true, s.entry_price, hd, stop2⟩, ⟨0, 1, hd, 0, stop2, none⟩)

/-- `generate_signals`. -/
def generate_signals (p : Params) (bars : List Bar) : List Row :=
  match bars with
  | [] => []
  | _ => row0 :: procList (step p bars) (List.range' 1 (bars.length - 1)) st0

end BoxStrategy

/-- C4 (amended).  The stop-loss exit is a breach test on the bar low
(`low(t) ≤ current_stop_price`) in `MovingAverageStrategy` (lines 208-211)
— proved here as: while long and without a dead-cross signal, the low at
or below the stop always exits with reason stop-loss — but *not* in
`BoxBreakoutStrategy`, whose test (lines 734-737) compares the bar
**close** strictly against a truthy stop price, so a bar whose low
breaches the stop while its close does not produces no stop exit there. -/
theorem c4_stop_checks :
    (∀ (p : MAStrategy.Params) (bars : List Bar) (i : ℕ) (s : MAStrategy.St),
        s.pos = true → MAStrategy.signal_raw p bars i ≠ -1 →
        (bat bars i).low ≤ s.stop_loss →
        (MAStrategy.step p bars i s).2.signal = -1 ∧
          (MAStrategy.step p bars i s).2.sell_reason =
            some MAStrategy.Reason.stopLoss) ∧
      (∀ (low stop close : ℚ),
        (MAStrategy.stop_hit low stop = true ↔ low ≤ stop) ∧
          (BoxStrategy.stop_hit stop close = true ↔ stop ≠ 0 ∧ close < stop)) := by
  constructor
  · intro p bars i s hpos hraw hlow
    unfold MAStrategy.step
    rw [if_neg (by simp [hpos])]
    rw [if_neg hraw, if_pos (by unfold MAStrategy.stop_hit; exact decide_eq_true hlow)]
    exact ⟨rfl, rfl⟩
  · intro low stop close
    constructor
    · unfold MAStrategy.stop_hit
      exact decide_eq_true_iff
    · unfold BoxStrategy.stop_hit
      simp

/-- The box-breakout series of the C4 counterexample: a 20-bar box with
highs 100 and lows 90, a breakout entry at bar 5 (close 105, stop 99.75),
then bar 6 with low 95 ≤ 99.75 but close 101 above the stop. -/
def boxBars : List Bar :=
  [⟨0, 95, 100, 90, 95, 100⟩, ⟨1, 95, 100, 90, 95, 100⟩,
   ⟨2, 95, 100, 90, 95, 100⟩, ⟨3, 95, 100, 90, 95, 100⟩,
   ⟨4, 95, 100, 90, 95, 100⟩, ⟨5, 105, 105, 98, 105, 100⟩,
   ⟨6, 101, 102, 95, 101, 100⟩]

/-- C4 counterexample.  On `boxBars`, `BoxBreakoutStrategy` enters at bar
5 with stop 99.75; at bar 6 the low (95) is at or below the stop in force
yet no exit of any kind fires (signal 0, still long, no reason): the
claimed low-based stop check `low(t) ≤ current_stop_price` is false for
this strategy variant. -/
theorem c4_box_stop_ignores_low :
    (BoxStrategy.generate_signals BoxStrategy.defaultParams boxBars).get? 5 =
        some ⟨1, 1, 1, 105, 399 / 4, none⟩ ∧
      (BoxStrategy.generate_signals BoxStrategy.defaultParams boxBars).get? 6 =
        some ⟨0, 1, 2, 0, 399 / 4, none⟩ ∧
      (bat boxBars 6).low ≤ 399 / 4 := by
  refine ⟨by decide, by decide, by decide⟩

/-- A two-bar series whose second bar has low 96 and no dead cross. -/
def maDemoStopBars : List Bar :=
  [⟨0, 100, 101, 99, 100, 100⟩, ⟨1, 100, 101, 96, 100, 100⟩]

/-- Closed witness for C4: the moving-average side evaluated at a long
state with stop 97 and a bar low of 96 (no dead cross), which exits with
reason stop-loss; and the two breach tests evaluated at low 96, stop 97,
close 101. -/
theorem c4_stop_checks_witness :
    ((MAStrategy.step MAStrategy.defaultParams maDemoStopBars 1
          ⟨true, 100, 1, 97, 120⟩).2.signal = -1 ∧
        (MAStrategy.step MAStrategy.defaultParams maDemoStopBars 1
          ⟨true, 100, 1, 97, 120⟩).2.sell_reason =
          some MAStrategy.Reason.stopLoss) ∧
      ((MAStrategy.stop_hit 96 97 = true ↔ (96 : ℚ) ≤ 97) ∧
        (BoxStrategy.stop_hit 97 101 = true ↔ (97 : ℚ) ≠ 0 ∧ (101 : ℚ) < 97)) :=
  ⟨c4_stop_checks.1 MAStrategy.defaultParams maDemoStopBars 1
      ⟨true, 100, 1, 97, 120⟩ rfl (by decide) (by decide),
    c4_stop_checks.2 96 97 101⟩

/-! ### `MovingAverageWithATRStrategy` (strategys.py 777-1038)

The diagnostic fields the loop never reads (`ATR_pct`, `above_ma_days`,
`ma_short_slope`, `atr_at_entry`, `entry_date`, trade P&L) are not
modelled. -/

namespace AtrStrategy

/-- Constructor parameters of `MovingAverageWithATRStrategy.__init__`. -/
structure Params where
  short_ma : ℕ
  long_ma : ℕ
  atr_period : ℕ
  atr_multiplier : ℚ
  trailing_stop : Bool
  use_volume_confirmation : Bool
  deriving DecidableEq, Repr

/-- The default configuration (5, 20, 20, 2, True, True). -/
def defaultParams : Params := ⟨5, 20, 20, 2, true, true⟩

/-- `MA_short` column. -/
def ma_short (p : Params) (bars : List Bar) (i : ℕ) : Cell :=
  rollingMean p.short_ma (closeCol bars) i

/-- `MA_long` column. -/
def ma_long (p : Params) (bars : List Bar) (i : ℕ) : Cell :=
  rollingMean p.long_ma (closeCol bars) i

/-- True-range column: NaN at the first bar (the shifted close is NaN and
`np.maximum` propagates it). -/
def trCol (bars : List Bar) : List Cell :=
  (List.range bars.length).map fun i =>
    if i = 0 then none
    else
      let b := bat bars i
      let pc := (bat bars (i - 1)).close
      some (max (b.high - b.low) (max |b.high - pc| |b.low - pc|))

/-- `ATR` column (rolling mean of the true range, NaN rows excluded). -/
def atr (p : Params) (bars : List Bar) (i : ℕ) : Cell :=
  rollingMean p.atr_period (trCol bars) i

/-- `atr_stop` column (`ATR * atr_multiplier`). -/
def atr_stop (p : Params) (bars : List Bar) (i : ℕ) : Cell :=
  cmul (atr p bars i) (some p.atr_multiplier)

/-- `volume_ma` column. -/
def volume_ma (bars : List Bar) (i : ℕ) : Cell :=
  rollingMean 20 (volCol bars) i

/-- `volume_ratio` column. -/
def volume_ratio (bars : List Bar) (i : ℕ) : Cell :=
  cdiv (cget (volCol bars) i) (volume_ma bars i)

/-- `ma_long_slope` column. -/
def ma_long_slope (p : Params) (bars : List Bar) (i : ℕ) : Cell :=
  pctChangeAt 5 (ma_long p bars) i

/-- Golden cross of the two moving averages. -/
def golden_cross (p : Params) (bars : List Bar) (i : ℕ) : Bool :=
  clt (ma_long p bars i) (ma_short p bars i) &&
    cle (prevCell (ma_short p bars) i) (prevCell (ma_long p bars) i)

/-- Dead cross of the two moving averages. -/
def dead_cross (p : Params) (bars : List Bar) (i : ℕ) : Bool :=
  clt (ma_short p bars i) (ma_long p bars i) &&
    cle (prevCell (ma_long p bars) i) (prevCell (ma_short p bars) i)

/-- Raw signal: golden crosses pass the optional volume filter and the
always-applied trend filter (`ma_long_slope > 0`, lines 899-901). -/
def signal_raw (p : Params) (bars : List Bar) (i : ℕ) : ℚ :=
  if golden_cross p bars i then
    if p.use_volume_confirmation && !clt (some (12 / 10)) (volume_ratio bars i) then 0
    else if !clt (some 0) (ma_long_slope p bars i) then 0
    else 1
  else if dead_cross p bars i then -1
  else 0

/-- Exit reasons in code order: dead cross, ATR stop, protective max-loss
stop, time stop. -/
inductive Reason where
  | deadCross
  | atrStop
  | maxLoss
  | timeExit
  deriving DecidableEq, Repr

/-- The sell decision of lines 977-1002, reproducing the source's control
flow exactly: conditions 1 and 2 form an if/elif chain, but conditions 3
(max loss) and 4 (time) are independent `if` statements that overwrite the
previously attributed reason. -/
def sell_decision (deadCrossHit stopHitB maxLossHit timeHit : Bool) :
    Option Reason :=
  let r1 : Bool × Option Reason :=
    if deadCrossHit then (true, some .deadCross)
    else if stopHitB then (true, some .atrStop)
    else (false, none)
  let r2 := if maxLossHit then (true, some .maxLoss) else r1
  let r3 := if timeHit then (true, some .timeExit) else r2
  if r3.1 then r3.2 else none

/-- Python's binary `max`, which returns its second argument only when the
comparison decides it is larger (so a NaN second argument is never
chosen and a NaN first argument always is). -/
def cmaxPy (a b : Cell) : Cell := if clt a b then b else a

/-- Mutable loop state (lines 903-911). -/
structure St where
  pos : Bool
  entry_price : ℚ
  hold_days : ℕ
  initial_stop : Cell
  current_stop : Cell
  max_price : ℚ
  deriving DecidableEq, Repr

/-- Per-bar output row. -/
structure Row where
  signal : ℚ
  position : ℚ
  entry_price : ℚ
  initial_stop : Cell
  current_stop : Cell
  hold_days : ℕ
  max_price : ℚ
  sell_reason : Option Reason
  deriving DecidableEq, Repr

/-- Initial loop state. -/
def st0 : St := ⟨false, 0, 0, some 0, some 0, 0⟩

/-- Row of an untouched bar (float columns initialised to 0.0). -/
def row0 : Row := ⟨0, 0, 0, some 0, some 0, 0, 0, none⟩

/-- One iteration of the signal loop (lines 913-1032).  On hold and exit
bars alike, `max_price_since_entry` and `current_stop` are updated and
recorded before the sell decision (lines 961-975). -/
def step (p : Params) (bars : List Bar) (i : ℕ) (s : St) : St × Row :=
  let b := bat bars i
  let raw := signal_raw p bars i
  if s.pos = false then
    if raw = 1 then
      let istop := csub (some b.close) (atr_stop p bars i)
      (⟨true, b.close, 1, istop, istop, b.close⟩,
        ⟨1, 1, b.close, istop, istop, 1, b.close, none⟩)
    else (s, row0)
  else
    let hd := s.hold_days + 1
    let maxp := max s.max_price b.high
    let cur2 :=
      if p.trailing_stop then
        cmaxPy s.current_stop (csub (some maxp) (atr_stop p bars i))
      else s.initial_stop
    let deadHit := decide (raw = -1)
    let stopHitB := cle (some b.low) cur2
    let lossHit := decide ((b.close - s.entry_price) / s.entry_price ≤ -(15 / 100))
    let timeHit := decide (60 ≤ hd)
    match sell_decision deadHit stopHitB lossHit timeHit with
    | some r => (st0, ⟨-1, 0, 0, some 0, cur2, hd, maxp, some r⟩)
    | none =>
      (⟨true, s.entry_price, hd, s.initial_stop, cur2, maxp⟩,
        ⟨0, 1, 0, some 0, cur2, hd, maxp, none⟩)

/-- `generate_signals`. -/
def generate_signals (p : Params) (bars : List Bar) : List Row :=
  match bars with
  | [] => []
  | _ => row0 :: procList (step p bars) (List.range' 1 (bars.length - 1)) st0

end AtrStrategy

/-- C2 (amended).  The exit decision attributes exactly one reason per
bar, but not by the claimed fixed priority (signal reversal first, time
exit last): because the max-loss and time conditions of
`MovingAverageWithATRStrategy` are unchained `if` statements that
overwrite the earlier reason, the attributed reason is
time > max-loss > dead-cross > ATR-stop — a *later*-checked condition
wins over the explicit exit signal. -/
theorem c2_atr_exit_reason_last_match :
    ∀ d st ml t : Bool,
      AtrStrategy.sell_decision d st ml t =
        (if t then some AtrStrategy.Reason.timeExit
         else if ml then some AtrStrategy.Reason.maxLoss
         else if d then some AtrStrategy.Reason.deadCross
         else if st then some AtrStrategy.Reason.atrStop
         else none) := by
  decide

/-- The ATR-strategy series of the C2 counterexample: golden-cross entry
at bar 5 (close 106), then a crash bar 6 whose dead cross and 17% loss
are simultaneous. -/
def atrBars : List Bar :=
  [⟨0, 100, 101, 99, 100, 100⟩, ⟨1, 100, 101, 99, 100, 100⟩,
   ⟨2, 100, 101, 99, 100, 100⟩, ⟨3, 100, 101, 99, 100, 100⟩,
   ⟨4, 100, 101, 99, 100, 100⟩, ⟨5, 106, 106, 100, 106, 1000⟩,
   ⟨6, 88, 100, 85, 88, 100⟩]

/-- C2 counterexample.  On `atrBars`, bar 6 carries the explicit exit
signal (`signal_raw = -1`, the highest-priority reason by the claim), yet
the attributed exit reason is the max-loss stop — the lower-priority,
later-checked condition — so the claimed priority order
(1 signal, 2 stop, 3 take-profit, 4 secondary, 5 time) is false on the
code. -/
theorem c2_atr_reason_not_highest_priority :
    AtrStrategy.signal_raw AtrStrategy.defaultParams atrBars 6 = -1 ∧
      (AtrStrategy.generate_signals AtrStrategy.defaultParams atrBars).get? 6 =
        some ⟨-1, 0, 0, some 0, some (502 / 5), 2, 106,
          some AtrStrategy.Reason.maxLoss⟩ ∧
      some AtrStrategy.Reason.maxLoss ≠ some AtrStrategy.Reason.deadCross := by
  refine ⟨by decide, by decide, by decide⟩

/-! ### `MeanReversionStrategy` (strategys.py 1412-1675)

The columns the loop never reads (`BB_width`, `volume_ratio`,
`volatility`, `buy_eligible`, trade P&L) are not modelled. -/

namespace MrStrategy

/-- Constructor parameters of `MeanReversionStrategy.__init__`. -/
structure Params where
  bb_period : ℕ
  bb_std : ℚ
  rsi_period : ℕ
  rsi_overbought : ℚ
  rsi_oversold : ℚ
  rsi_stop_loss : ℚ
  use_t1_rule : Bool
  deriving DecidableEq, Repr

/-- The default configuration (20, 2, 7, 75, 25, 20, True). -/
def defaultParams : Params := ⟨20, 2, 7, 75, 25, 20, true⟩

/-- `BB_middle` column. -/
def bb_middle (p : Params) (bars : List Bar) (i : ℕ) : Cell :=
  rollingMean p.bb_period (closeCol bars) i

/-- `BB_std` column (rolling sample standard deviation). -/
def bb_std (p : Params) (bars : List Bar) (i : ℕ) : Cell :=
  rollingStd p.bb_period (closeCol bars) i

/-- `BB_upper` column. -/
def bb_upper (p : Params) (bars : List Bar) (i : ℕ) : Cell :=
  cadd (bb_middle p bars i) (cmul (some p.bb_std) (bb_std p bars i))

/-- `BB_lower` column. -/
def bb_lower (p : Params) (bars : List Bar) (i : ℕ) : Cell :=
  csub (bb_middle p bars i) (cmul (some p.bb_std) (bb_std p bars i))

/-- `BB_position` column. -/
def bb_position (p : Params) (bars : List Bar) (i : ℕ) : Cell :=
  cdiv (csub (cget (closeCol bars) i) (bb_lower p bars i))
    (csub (bb_upper p bars i) (bb_lower p bars i))

/-- `price_change` column (`close.diff()`). -/
def price_change (bars : List Bar) (i : ℕ) : Cell :=
  csub (cget (closeCol bars) i) (prevCell (cget (closeCol bars)) i)

/-- `gain` column: `np.where(price_change > 0, price_change, 0)` — the NaN
first row yields 0, not NaN. -/
def gainCol (bars : List Bar) : List Cell :=
  (List.range bars.length).map fun i =>
    match price_change bars i with
    | some d => some (if 0 < d then d else 0)
    | none => some 0

/-- `loss` column: `np.where(price_change < 0, -price_change, 0)`. -/
def lossCol (bars : List Bar) : List Cell :=
  (List.range bars.length).map fun i =>
    match price_change bars i with
    | some d => some (if d < 0 then -d else 0)
    | none => some 0

/-- `avg_gain` column. -/
def avg_gain (p : Params) (bars : List Bar) (i : ℕ) : Cell :=
  rollingMean p.rsi_period (gainCol bars) i

/-- `avg_loss` column. -/
def avg_loss (p : Params) (bars : List Bar) (i : ℕ) : Cell :=
  rollingMean p.rsi_period (lossCol bars) i

/-- `replace(0, np.nan)` on a cell. -/
def replaceZero (c : Cell) : Cell := if c = some 0 then none else c

/-- `rs` column: `avg_gain / avg_loss.replace(0, nan)`. -/
def rs (p : Params) (bars : List Bar) (i : ℕ) : Cell :=
  cdiv (avg_gain p bars i) (replaceZero (avg_loss p bars i))

/-- `RSI` column after `fillna(50)`: neutral 50 wherever the guarded
ratio is NaN (in particular wherever the average loss is zero). -/
def rsi (p : Params) (bars : List Bar) (i : ℕ) : ℚ :=
  match csub (some 100) (cdiv (some 100) (cadd (some 1) (rs p bars i))) with
  | some v => v
  | none => 50

/-- `below_lower` column. -/
def below_lower (p : Params) (bars : List Bar) (i : ℕ) : Bool :=
  clt (cget (closeCol bars) i) (bb_lower p bars i)

/-- `above_upper` column. -/
def above_upper (p : Params) (bars : List Bar) (i : ℕ) : Bool :=
  clt (bb_upper p bars i) (cget (closeCol bars) i)

/-- Raw signal: buy below the lower band with an oversold RSI, sell above
the upper band with an overbought RSI. -/
def signal_raw (p : Params) (bars : List Bar) (i : ℕ) : ℚ :=
  if below_lower p bars i && decide (rsi p bars i < p.rsi_oversold) then 1
  else if above_upper p bars i && decide (p.rsi_overbought < rsi p bars i) then -1
  else 0

/-- `stop_loss_raw` column: below the lower band or RSI below the stop
threshold. -/
def stop_loss_raw (p : Params) (bars : List Bar) (i : ℕ) : Bool :=
  below_lower p bars i || decide (rsi p bars i < p.rsi_stop_loss)

/-- Exit reasons in code order: band-and-RSI sell signal, lower-band stop,
RSI stop, mid-band profit protection, maximum hold days. -/
inductive Reason where
  | upperRsi
  | lowerStop
  | rsiStop
  | midBand
  | timeLimit
  deriving DecidableEq, Repr

/-- Mutable loop state (lines 1555-1561). -/
structure St where
  pos : Bool
  entry_price : ℚ
  hold_days : ℕ
  stop_loss : Cell
  last_buy : Option ℤ
  deriving DecidableEq, Repr

/-- Per-bar output row. -/
structure Row where
  signal : ℚ
  position : ℚ
  entry_price : ℚ
  stop_loss : Cell
  hold_days : ℕ
  sell_reason : Option Reason
  deriving DecidableEq, Repr

/-- Initial loop state. -/
def st0 : St := ⟨false, 0, 0, some 0, none⟩

/-- Row of an untouched bar. -/
def row0 : Row := ⟨0, 0, 0, some 0, 0, none⟩

/-- The T+1 check of lines 1574-1581: selling is blocked on the buy day
itself. -/
def can_sell (p : Params) (bars : List Bar) (i : ℕ) (s : St) : Bool :=
  if p.use_t1_rule then
    match s.last_buy with
    | some d => !decide ((bat bars i).date - d < 1)
    | none => true
  else true

/-- One iteration of the signal loop (lines 1563-1669).  Conditions 1-3
form an if/elif chain; condition 4 (maximum hold days, line 1637) is an
independent `if` that overwrites the attributed reason.  On hold bars the
recorded and stored stop is re-anchored to the current `BB_lower` with no
monotonicity clamp (lines 1667-1669). -/
def step (p : Params) (bars : List Bar) (i : ℕ) (s : St) : St × Row :=
  let b := bat bars i
  let raw := signal_raw p bars i
  let cs := can_sell p bars i s
  if s.pos = false then
    if raw = 1 then
      let stop := bb_lower p bars i
      (⟨true, b.close, 1, stop, some b.date⟩, ⟨1, 1, b.close, stop, 1, none⟩)
    else (s, row0)
  else
    let hd := s.hold_days + 1
    let sell0 : Option Reason :=
      if decide (raw = -1) && cs then some .upperRsi
      else if stop_loss_raw p bars i && cs then
        if below_lower p bars i then some .lowerStop else some .rsiStop
      else if clt (some (1 / 2)) (bb_position p bars i) && cs then some .midBand
      else none
    let sellf := if decide (10 ≤ hd) && cs then some .timeLimit else sell0
    match sellf with
    | some r => (⟨false, 0, 0, some 0, s.last_buy⟩, ⟨-1, 0, 0, some 0, hd, some r⟩)
    | none =>
      (⟨true, s.entry_price, hd, bb_lower p bars i, s.last_buy⟩,
        ⟨0, 1, 0, bb_lower p bars i, hd, none⟩)

/-- `generate_signals`. -/
def generate_signals (p : Params) (bars : List Bar) : List Row :=
  match bars with
  | [] => []
  | _ => row0 :: procList (step p bars) (List.range' 1 (bars.length - 1)) st0

end MrStrategy

/-- C9.  Wherever the rolling average loss of the RSI computation is zero,
the guarded ratio (`replace(0, nan)` then `fillna(50)`) makes the RSI
exactly the neutral value 50 — never a division-by-zero error or an
undefined RSI. -/
theorem c9_rsi_neutral_on_zero_loss (p : MrStrategy.Params) (bars : List Bar)
    (i : ℕ) (h : MrStrategy.avg_loss p bars i = some 0) :
    MrStrategy.rsi p bars i = 50 := by
  unfold MrStrategy.rsi MrStrategy.rs
  rw [h]
  rcases hg : MrStrategy.avg_gain p bars i with _ | g
  · simp [MrStrategy.replaceZero, cdiv, cadd, csub]
  · simp [MrStrategy.replaceZero, cdiv, cadd, csub]

/-- A five-bar series with constant closes. -/
def mrFlatBars : List Bar :=
  [⟨0, 100, 100, 100, 100, 100⟩, ⟨1, 100, 100, 100, 100, 100⟩,
   ⟨2, 100, 100, 100, 100, 100⟩, ⟨3, 100, 100, 100, 100, 100⟩,
   ⟨4, 100, 100, 100, 100, 100⟩]

/-- Closed witness for C9: with constant closes the average loss at bar 3
is zero and the RSI is exactly 50. -/
theorem c9_rsi_neutral_on_zero_loss_witness :
    MrStrategy.avg_loss MrStrategy.defaultParams mrFlatBars 3 = some 0 ∧
      MrStrategy.rsi MrStrategy.defaultParams mrFlatBars 3 = 50 :=
  ⟨by decide,
    c9_rsi_neutral_on_zero_loss MrStrategy.defaultParams mrFlatBars 3 (by decide)⟩

/-- The mean-reversion series of the C1 counterexample: eight flat closes
at 100, a dip to 91 (band entry, stop = lower band = 93), then a partial
rebound to 94 on whose hold bar the lower band falls below 93. -/
def mrBars : List Bar :=
  [⟨0, 100, 100, 100, 100, 100⟩, ⟨1, 100, 100, 100, 100, 100⟩,
   ⟨2, 100, 100, 100, 100, 100⟩, ⟨3, 100, 100, 100, 100, 100⟩,
   ⟨4, 100, 100, 100, 100, 100⟩, ⟨5, 100, 100, 100, 100, 100⟩,
   ⟨6, 100, 100, 100, 100, 100⟩, ⟨7, 100, 100, 100, 100, 100⟩,
   ⟨8, 91, 91, 91, 91, 100⟩, ⟨9, 94, 94, 94, 94, 100⟩]

/-- C1 counterexample.  On `mrBars`, `MeanReversionStrategy` is long on
bars 8 and 9 (entry, then hold), yet the recorded stop *falls* from 93 to
4600963/50000 ≈ 92.019: the per-variant claim that the stop price is
monotonically non-decreasing while Long is false on this strategy. -/
theorem c1_meanrev_stop_decreases :
    (MrStrategy.generate_signals MrStrategy.defaultParams mrBars).get? 8 =
        some ⟨1, 1, 91, some 93, 1, none⟩ ∧
      (MrStrategy.generate_signals MrStrategy.defaultParams mrBars).get? 9 =
        some ⟨0, 1, 0, some (4600963 / 50000), 2, none⟩ ∧
      (4600963 / 50000 : ℚ) < 93 := by
  refine ⟨by decide, by decide, by decide⟩

/-! ### `VolatilityControlStrategy` (strategys.py 2052-2363)

The columns the loop never reads (`ATR_pct`, `price_volatility`,
`volume_ratio`, `bb_width`, `ma_diff_pct`, `buy_eligible`,
`adjust_reason`, `position_type`, trade P&L) are not modelled. -/

namespace VcStrategy

/-- Constructor parameters of `VolatilityControlStrategy.__init__`. -/
structure Params where
  atr_period : ℕ
  vol_std_period : ℕ
  high_vol_position : ℚ
  low_vol_position : ℚ
  ma_short : ℕ
  ma_long : ℕ
  use_t1_rule : Bool
  deriving DecidableEq, Repr

/-- The default configuration (14, 20, 1000, 2000, 5, 10, True). -/
def defaultParams : Params := ⟨14, 20, 1000, 2000, 5, 10, true⟩

/-- True-range column (NaN at the first bar). -/
def trCol (bars : List Bar) : List Cell :=
  (List.range bars.length).map fun i =>
    if i = 0 then none
    else
      let b := bat bars i
      let pc := (bat bars (i - 1)).close
      some (max (b.high - b.low) (max |b.high - pc| |b.low - pc|))

/-- `ATR` column as a list (it feeds further rolling statistics). -/
def atrCol (p : Params) (bars : List Bar) : List Cell :=
  (List.range bars.length).map fun i => rollingMean p.atr_period (trCol bars) i

/-- `ATR_std` column. -/
def atr_std (p : Params) (bars : List Bar) (i : ℕ) : Cell :=
  rollingStd p.vol_std_period (atrCol p bars) i

/-- `ATR_mean` column. -/
def atr_mean (p : Params) (bars : List Bar) (i : ℕ) : Cell :=
  rollingMean p.vol_std_period (atrCol p bars) i

/-- `vol_threshold` column. -/
def vol_threshold (p : Params) (bars : List Bar) (i : ℕ) : Cell :=
  cadd (atr_mean p bars i) (atr_std p bars i)

/-- `high_volatility` column: ATR strictly above the threshold (false on
any NaN). -/
def high_volatility (p : Params) (bars : List Bar) (i : ℕ) : Bool :=
  clt (vol_threshold p bars i) (cget (atrCol p bars) i)

/-- `MA_short` column. -/
def ma_short (p : Params) (bars : List Bar) (i : ℕ) : Cell :=
  rollingMean p.ma_short (closeCol bars) i

/-- `MA_long` column. -/
def ma_long (p : Params) (bars : List Bar) (i : ℕ) : Cell :=
  rollingMean p.ma_long (closeCol bars) i

/-- Golden cross. -/
def golden_cross (p : Params) (bars : List Bar) (i : ℕ) : Bool :=
  clt (ma_long p bars i) (ma_short p bars i) &&
    cle (prevCell (ma_short p bars) i) (prevCell (ma_long p bars) i)

/-- Dead cross. -/
def dead_cross (p : Params) (bars : List Bar) (i : ℕ) : Bool :=
  clt (ma_short p bars i) (ma_long p bars i) &&
    cle (prevCell (ma_long p bars) i) (prevCell (ma_short p bars) i)

/-- Raw crossover signal (no confirmation filters in this strategy). -/
def signal_raw (p : Params) (bars : List Bar) (i : ℕ) : ℚ :=
  if golden_cross p bars i then 1
  else if dead_cross p bars i then -1
  else 0

/-- `target_position` column: 1000 shares in high volatility, 2000 in
low. -/
def target_position (p : Params) (bars : List Bar) (i : ℕ) : ℚ :=
  if high_volatility p bars i then p.high_vol_position else p.low_vol_position

/-- Exit reasons in code order: dead cross, volatility spike, max-loss
stop, maximum hold days — all four checked by independent `if` statements
(lines 2259-2287), the last matching one keeping the reason. -/
inductive Reason where
  | deadCross
  | volSpike
  | maxLoss
  | timeLimit
  deriving DecidableEq, Repr

/-- Mutable loop state (lines 2193-2199). -/
structure St where
  position : ℚ
  target_position : ℚ
  entry_price : ℚ
  hold_days : ℕ
  last_buy : Option ℤ
  deriving DecidableEq, Repr

/-- Per-bar output row. -/
structure Row where
  signal : ℚ
  position : ℚ
  target_position : ℚ
  entry_price : ℚ
  hold_days : ℕ
  sell_reason : Option Reason
  deriving DecidableEq, Repr

/-- Initial loop state. -/
def st0 : St := ⟨0, 0, 0, 0, none⟩

/-- The T+1 check of lines 2212-2219. -/
def can_sell (p : Params) (bars : List Bar) (i : ℕ) (s : St) : Bool :=
  if p.use_t1_rule then
    match s.last_buy with
    | some d => !decide ((bat bars i).date - d < 1)
    | none => true
  else true

/-- The ATR-spike test of lines 2264-2270: only from the third bar on,
with a positive previous ATR and a ratio above 1.5. -/
def atr_spike (p : Params) (bars : List Bar) (i : ℕ) : Bool :=
  decide (1 < i) && clt (some 0) (cget (atrCol p bars) (i - 1)) &&
    clt (some (3 / 2)) (cdiv (cget (atrCol p bars) i) (cget (atrCol p bars) (i - 1)))

/-- One iteration of the signal loop (lines 2201-2353).  While long, a bar
with no exit but a changed volatility-target emits `signal = 1` (add
shares, lines 2315-2328) or `signal = -0.5` (reduce, lines 2330-2343). -/
def step (p : Params) (bars : List Bar) (i : ℕ) (s : St) : St × Row :=
  let b := bat bars i
  let raw := signal_raw p bars i
  let tgt := target_position p bars i
  let cs := can_sell p bars i s
  if s.position = 0 then
    if raw = 1 then
      (⟨tgt, tgt, b.close, 1, some b.date⟩, ⟨1, tgt, tgt, b.close, 1, none⟩)
    else (s, ⟨0, 0, tgt, 0, 0, none⟩)
  else
    let hd := s.hold_days + 1
    let r1 : Option Reason :=
      if decide (raw = -1) && cs then some .deadCross else none
    let r2 := if atr_spike p bars i && cs then some .volSpike else r1
    let r3 :=
      if decide ((b.close - s.entry_price) / s.entry_price ≤ -(1 / 10)) && cs then
        some .maxLoss
      else r2
    let r4 := if decide (30 ≤ hd) && cs then some .timeLimit else r3
    match r4 with
    | some r => (⟨0, 0, 0, 0, s.last_buy⟩, ⟨-1, 0, 0, 0, hd, some r⟩)
    | none =>
      if tgt ≠ s.target_position && cs then
        if s.position < tgt then
          (⟨tgt, tgt, s.entry_price, hd, s.last_buy⟩, ⟨1, tgt, tgt, 0, hd, none⟩)
        else if tgt < s.position then
          (⟨tgt, tgt, s.entry_price, hd, s.last_buy⟩,
            ⟨-(1 / 2), tgt, tgt, 0, hd, none⟩)
        else
          (⟨s.position, s.target_position, s.entry_price, hd, s.last_buy⟩,
            ⟨0, s.position, s.target_position, 0, hd, none⟩)
      else
        (⟨s.position, s.target_position, s.entry_price, hd, s.last_buy⟩,
          ⟨0, s.position, s.target_position, 0, hd, none⟩)

/-- Row of an untouched bar (the `target_position` cell is the vectorized
column value). -/
def row0 (p : Params) (bars : List Bar) : Row :=
  ⟨0, 0, target_position p bars 0, 0, 0, none⟩

/-- `generate_signals`. -/
def generate_signals (p : Params) (bars : List Bar) : List Row :=
  match bars with
  | [] => []
  | _ =>
    row0 p bars :: procList (step p bars) (List.range' 1 (bars.length - 1)) st0

end VcStrategy

/-- The volatility-control series of the C5 counterexample: eight quiet
bars (true range 8), a wide breakout bar 9 (true range 10, golden cross,
high volatility ⇒ 1000-share entry), then a calm bar 10 on which the
volatility layer drops to low ⇒ target 2000. -/
def vcBars : List Bar :=
  [⟨0, 100, 104, 96, 100, 100⟩, ⟨1, 100, 104, 96, 100, 100⟩,
   ⟨2, 100, 104, 96, 100, 100⟩, ⟨3, 100, 104, 96, 100, 100⟩,
   ⟨4, 100, 104, 96, 100, 100⟩, ⟨5, 100, 104, 96, 100, 100⟩,
   ⟨6, 100, 104, 96, 100, 100⟩, ⟨7, 100, 104, 96, 100, 100⟩,
   ⟨8, 100, 104, 96, 100, 100⟩, ⟨9, 110, 110, 100, 110, 100⟩,
   ⟨10, 110, 113, 107, 110, 100⟩]

/-- C5 counterexample.  On `vcBars`, `VolatilityControlStrategy` emits a
buy signal (`signal = 1`) on bar 9 (1000-share entry in high volatility)
and another buy signal on the immediately following bar 10 (add to 2000
shares on the volatility downshift) with no possible intervening sell:
the claim that no two Enter signals occur without an intervening Exit is
false on this strategy variant. -/
theorem c5_volctrl_double_buy :
    (VcStrategy.generate_signals VcStrategy.defaultParams vcBars).get? 9 =
        some ⟨1, 1000, 1000, 110, 1, none⟩ ∧
      (VcStrategy.generate_signals VcStrategy.defaultParams vcBars).get? 10 =
        some ⟨1, 2000, 2000, 0, 2, none⟩ := by
  refine ⟨by decide, by decide⟩

end Topstock
